import Mathlib

/-!
Verification of `src/Assets/DMG/create_background.py` (BongoCat-mac DMG
background generator).  The Python script is shallowly embedded below:
pure computations become Lean functions over ℕ/ℤ/ℚ (Python `int(...)` of a
nonnegative float expression is the rational floor, since for every value
the script computes the float result is far closer to the exact rational
than to any integer boundary; `//` on ints is `Int.fdiv`), the drawing
calls become an explicit list of drawing operations, and the process-level
behaviour of `main` becomes a function from an abstract system environment
to a trace of observable events plus an exit code.
-/

namespace CreateBackground

/-- Default canvas width (`width=540` in `create_dmg_background`). -/
def width : ℕ := 540

/-- Default canvas height (`height=300` in `create_dmg_background`). -/
def height : ℕ := 300

/-- `gradient_value = int(240 + (15 * y / height))`: the rational floor of
`240 + 15·y/300`. -/
def gradient_value (y : ℕ) : ℤ := ⌊(240 : ℚ) + 15 * y / height⌋

/-- `color = (gradient_value - 5, gradient_value, gradient_value)`. -/
def gradient_color (y : ℕ) : ℤ × ℤ × ℤ :=
  (gradient_value y - 5, gradient_value y, gradient_value y)

/-- Closed form of the gradient luminance: `240 + (15·y) div 300`. -/
theorem gradient_value_eq (y : ℕ) : gradient_value y = 240 + (15 * y : ℤ) / 300 := by
  have h : (240 : ℚ) + 15 * y / height = ((240 * 300 + 15 * y : ℤ) : ℚ) / ((300 : ℕ) : ℚ) := by
    push_cast [height]
    ring
  rw [gradient_value, h, Rat.floor_intCast_div_natCast]
  omega

/-- A font handle: `ImageFont.truetype(path, size)` or
`ImageFont.load_default()`. -/
inductive FontRef where
  | truetype (path : String) (size : ℕ)
  | defaultFont
  deriving DecidableEq

/-- A drawing operation issued against the `ImageDraw` object, or the final
`image.save` call.  A `text` op records the font argument as passed, which
the partial-load corner of font resolution can leave as `none`. -/
inductive DrawOp where
  | line (a b : ℤ × ℤ) (color : ℤ × ℤ × ℤ) (strokeWidth : ℕ)
  | polygon (pts : List (ℤ × ℤ)) (color : ℤ × ℤ × ℤ)
  | ellipse (a b : ℤ × ℤ) (color : ℤ × ℤ × ℤ)
  | text (pos : ℤ × ℤ) (s : String) (color : ℤ × ℤ × ℤ) (font : Option FontRef)
  | save (path : String) (format : String)
  deriving DecidableEq

/-- The gradient pass: `for y in range(height): draw.line([(0, y), (width, y)],
fill=color)` (default stroke width 1). -/
def gradient_ops : List DrawOp :=
  (List.range height).map fun (y : ℕ) =>
    DrawOp.line ((0 : ℤ), (y : ℤ)) ((width : ℤ), (y : ℤ)) (gradient_color y) 1

end CreateBackground

open CreateBackground

/-- C1: every scanline `y < 300` is painted with the single RGB triple whose
green and blue channels equal `gradient_value y` and whose red channel is
`gradient_value y - 5`; the channel value is monotonically non-decreasing in
`y`, and scanline 0 has a different colour from scanline 299. -/
theorem C1_gradient_scanlines :
    (∀ y, y < height →
      gradient_ops[y]? = some (DrawOp.line ((0 : ℤ), (y : ℤ)) ((width : ℤ), (y : ℤ))
        (gradient_value y - 5, gradient_value y, gradient_value y) 1))
    ∧ (∀ y₁ y₂, y₁ ≤ y₂ → y₂ < height → gradient_value y₁ ≤ gradient_value y₂)
    ∧ gradient_color 0 ≠ gradient_color (height - 1) := by
  refine ⟨?_, ?_, ?_⟩
  · intro y hy
    simp [gradient_ops, List.getElem?_map, List.getElem?_range, hy, gradient_color]
  · intro y₁ y₂ h _
    rw [gradient_value_eq, gradient_value_eq]
    omega
  · intro h
    have h0 := gradient_value_eq 0
    have h1 := gradient_value_eq (height - 1)
    simp only [gradient_color, Prod.mk.injEq, height] at h h0 h1
    omega

/-- Witness for C1 at concrete scanlines. -/
theorem C1_gradient_scanlines_witness :
    gradient_ops[0]? = some (DrawOp.line ((0 : ℤ), (0 : ℤ)) ((width : ℤ), (0 : ℤ))
        (gradient_value 0 - 5, gradient_value 0, gradient_value 0) 1)
    ∧ gradient_value 0 ≤ gradient_value 299 :=
  ⟨C1_gradient_scanlines.1 0 (by decide),
    C1_gradient_scanlines.2.1 0 299 (by decide) (by decide)⟩

namespace CreateBackground

/-- `title_text = "BangoCat for macOS"`. -/
def title_text : String := "BangoCat for macOS"

/-- `instruction_text = "Drag BangoCat.app to the Applications folder to install"`. -/
def instruction_text : String := "Drag BangoCat.app to the Applications folder to install"

/-- Width of a `draw.textbbox` result: `bbox[2] - bbox[0]`. -/
def bbox_width (b : ℤ × ℤ × ℤ × ℤ) : ℤ := b.2.2.1 - b.1

/-- `title_x = (width - title_width) // 2` (Python floor division on ints). -/
def title_x (title_width : ℤ) : ℤ := Int.fdiv ((width : ℤ) - title_width) 2

/-- `instruction_x = (width - instruction_width) // 2`. -/
def instruction_x (instruction_width : ℤ) : ℤ := Int.fdiv ((width : ℤ) - instruction_width) 2

/-- Floor division by two lands within one of the exact midpoint. -/
theorem fdiv_two_near_half (n : ℤ) : |(n : ℚ) / 2 - (Int.fdiv n 2 : ℚ)| ≤ 1 := by
  rw [Int.fdiv_eq_ediv n (by norm_num : (0 : ℤ) ≤ 2)]
  have h := Int.ediv_add_emod n 2
  have h2 : 0 ≤ n % 2 := Int.emod_nonneg n (by norm_num)
  have h3 : n % 2 < 2 := Int.emod_lt_of_pos n (by norm_num)
  have hq : (n : ℚ) = 2 * ((n / 2 : ℤ) : ℚ) + ((n % 2 : ℤ) : ℚ) := by exact_mod_cast h.symm
  have h2q : (0 : ℚ) ≤ ((n % 2 : ℤ) : ℚ) := by exact_mod_cast h2
  have h3q : ((n % 2 : ℤ) : ℚ) < 2 := by exact_mod_cast h3
  rw [abs_le]
  constructor <;> linarith

end CreateBackground

/-- C2: for any measured text width, the draw x coordinate chosen for the
title and for the instruction line is within one pixel of exact horizontal
centering on the canvas. -/
theorem C2_text_centering (title_width instruction_width : ℤ) :
    |((width : ℚ) - title_width) / 2 - (title_x title_width : ℚ)| ≤ 1
    ∧ |((width : ℚ) - instruction_width) / 2 - (instruction_x instruction_width : ℚ)| ≤ 1 := by
  constructor
  · have h := fdiv_two_near_half ((width : ℤ) - title_width)
    rw [title_x]
    convert h using 3
    push_cast
    ring
  · have h := fdiv_two_near_half ((width : ℤ) - instruction_width)
    rw [instruction_x]
    convert h using 3
    push_cast
    ring

namespace CreateBackground

/-- The fixed candidate list `font_paths` from the source. -/
def font_paths : List String :=
  ["/System/Library/Fonts/Helvetica.ttc",
   "/System/Library/Fonts/Arial.ttf",
   "/Library/Fonts/Arial.ttf"]

/-- Abstract filesystem/font environment: which paths exist
(`os.path.exists`) and whether `ImageFont.truetype(path, size)` returns
normally (`true`) or raises `OSError`/`IOError` (`false`). -/
structure FontEnv where
  fileExists : String → Bool
  loadOk : String → ℕ → Bool

/-- A candidate that exists and loads at size 24, so that the loop body
reaches the assignment to `title_font`. -/
def title_load_ok (env : FontEnv) (p : String) : Bool :=
  env.fileExists p && env.loadOk p 24

/-- A candidate that exists and loads at both sizes, so that the loop body
runs to its `break`. -/
def both_load_ok (env : FontEnv) (p : String) : Bool :=
  env.fileExists p && env.loadOk p 24 && env.loadOk p 14

/-- The font-selection loop of `create_dmg_background`, threading the
`(title_font, instruction_font)` pair exactly as the Python `for`/`try`
does: an existing candidate is loaded first at size 24 (assigning
`title_font`), then at size 14 (assigning `instruction_font`), and the loop
breaks only when both loads succeed; a load failure is caught, leaves the
earlier assignments in place and continues with the next candidate. -/
def font_loop (env : FontEnv) :
    List String → Option FontRef × Option FontRef → Option FontRef × Option FontRef
  | [], st => st
  | p :: rest, st =>
    if env.fileExists p then
      if env.loadOk p 24 then
        if env.loadOk p 14 then
          (some (FontRef.truetype p 24), some (FontRef.truetype p 14))
        else
          font_loop env rest (some (FontRef.truetype p 24), st.2)
      else
        font_loop env rest st
    else
      font_loop env rest st

/-- Font resolution: run the loop over `font_paths` from `(None, None)`;
afterwards `if not title_font:` assigns the default font to both handles. -/
def resolve_fonts (env : FontEnv) : Option FontRef × Option FontRef :=
  let st := font_loop env font_paths (none, none)
  if st.1 = none then (some FontRef.defaultFont, some FontRef.defaultFont) else st

/-- If some candidate fully succeeds, the loop returns the first such
candidate at both sizes, whatever the incoming state. -/
theorem font_loop_find (env : FontEnv) :
    ∀ (l : List String) (st : Option FontRef × Option FontRef) (p : String),
      l.find? (both_load_ok env) = some p →
      font_loop env l st = (some (FontRef.truetype p 24), some (FontRef.truetype p 14)) := by
  intro l
  induction l with
  | nil => intro st p hfind; simp at hfind
  | cons q rest ih =>
    intro st p hfind
    by_cases hb : both_load_ok env q = true
    · rw [List.find?_cons_of_pos rest hb] at hfind
      injection hfind with hqp
      subst hqp
      have h1 : env.fileExists q = true := by
        have := hb; simp [both_load_ok, Bool.and_eq_true] at this; exact this.1.1
      have h2 : env.loadOk q 24 = true := by
        have := hb; simp [both_load_ok, Bool.and_eq_true] at this; exact this.1.2
      have h3 : env.loadOk q 14 = true := by
        have := hb; simp [both_load_ok, Bool.and_eq_true] at this; exact this.2
      simp [font_loop, h1, h2, h3]
    · rw [List.find?_cons_of_neg rest hb] at hfind
      simp only [both_load_ok, Bool.and_eq_true, not_and] at hb
      unfold font_loop
      by_cases h1 : env.fileExists q = true
      · by_cases h2 : env.loadOk q 24 = true
        · have h3 : ¬ env.loadOk q 14 = true := fun h3 => hb ⟨h1, h2⟩ h3
          simp only [h1, h2, h3, if_true, if_false]
          exact ih _ p hfind
        · simp only [h1, h2, if_true, if_false]
          exact ih st p hfind
      · simp only [h1, if_false]
        exact ih st p hfind

/-- If no candidate reaches the `title_font` assignment, the loop leaves the
state untouched. -/
theorem font_loop_no_title (env : FontEnv) :
    ∀ (l : List String) (st : Option FontRef × Option FontRef),
      (∀ q ∈ l, ¬ title_load_ok env q = true) → font_loop env l st = st := by
  intro l
  induction l with
  | nil => intro st _; rfl
  | cons q rest ih =>
    intro st hall
    have hq := hall q (List.mem_cons_self q rest)
    simp only [title_load_ok, Bool.and_eq_true, not_and] at hq
    unfold font_loop
    by_cases h1 : env.fileExists q = true
    · have h2 : ¬ env.loadOk q 24 = true := hq h1
      simp only [h1, h2, if_true, if_false]
      exact ih st fun r hr => hall r (List.mem_cons_of_mem q hr)
    · simp only [h1, if_false]
      exact ih st fun r hr => hall r (List.mem_cons_of_mem q hr)

/-- Once the title slot holds a size-24 truetype handle, it keeps holding
some size-24 truetype handle through the rest of the loop. -/
theorem font_loop_keeps_title (env : FontEnv) :
    ∀ (l : List String) (st : Option FontRef × Option FontRef),
      (∃ p, st.1 = some (FontRef.truetype p 24)) →
      ∃ p, (font_loop env l st).1 = some (FontRef.truetype p 24) := by
  intro l
  induction l with
  | nil => intro st h; exact h
  | cons q rest ih =>
    intro st h
    unfold font_loop
    by_cases h1 : env.fileExists q = true
    · by_cases h2 : env.loadOk q 24 = true
      · by_cases h3 : env.loadOk q 14 = true
        · simp only [h1, h2, h3, if_true]
          exact ⟨q, rfl⟩
        · simp only [h1, h2, h3, if_true, if_false]
          exact ih _ ⟨q, rfl⟩
      · simp only [h1, h2, if_true, if_false]
        exact ih st h
    · simp only [h1, if_false]
      exact ih st h

/-- If some candidate reaches the `title_font` assignment, the loop ends
with a size-24 truetype handle in the title slot. -/
theorem font_loop_title_of_mem (env : FontEnv) :
    ∀ (l : List String) (st : Option FontRef × Option FontRef),
      (∃ q ∈ l, title_load_ok env q = true) →
      ∃ p, (font_loop env l st).1 = some (FontRef.truetype p 24) := by
  intro l
  induction l with
  | nil => intro st h; simp at h
  | cons q rest ih =>
    intro st h
    unfold font_loop
    by_cases h1 : env.fileExists q = true
    · by_cases h2 : env.loadOk q 24 = true
      · by_cases h3 : env.loadOk q 14 = true
        · simp only [h1, h2, h3, if_true]
          exact ⟨q, rfl⟩
        · simp only [h1, h2, h3, if_true, if_false]
          exact font_loop_keeps_title env rest _ ⟨q, rfl⟩
      · simp only [h1, h2, if_true, if_false]
        rcases h with ⟨r, hr, hrt⟩
        rcases List.mem_cons.mp hr with hreq | hrm
        · subst hreq
          exact absurd hrt (by simp [title_load_ok, h1, h2])
        · exact ih st ⟨r, hrm, hrt⟩
    · simp only [h1, if_false]
      rcases h with ⟨r, hr, hrt⟩
      rcases List.mem_cons.mp hr with hreq | hrm
      · subst hreq
        exact absurd hrt (by simp [title_load_ok, h1])
      · exact ih st ⟨r, hrm, hrt⟩

end CreateBackground

namespace CreateBackground

/-- Environment refuting C3: the first candidate exists and loads at size
24 but raises at size 14; no other candidate exists. -/
def cex_font_env : FontEnv where
  fileExists := fun p => p == "/System/Library/Fonts/Helvetica.ttc"
  loadOk := fun _ size => size == 24

/-- Environment in which every candidate exists and loads at every size. -/
def all_fonts_env : FontEnv where
  fileExists := fun _ => true
  loadOk := fun _ _ => true

end CreateBackground

/-- Counterexample to C3 as stated: in `cex_font_env` no candidate succeeds
at both sizes, yet resolution does not fall back to the default font for
both handles — the title handle keeps the partially loaded size-24 truetype
font and the instruction handle is left unset. -/
theorem C3_counterexample :
    (∀ q ∈ font_paths, ¬ both_load_ok cex_font_env q = true)
    ∧ resolve_fonts cex_font_env
        = (some (FontRef.truetype "/System/Library/Fonts/Helvetica.ttc" 24), none)
    ∧ resolve_fonts cex_font_env ≠ (some FontRef.defaultFont, some FontRef.defaultFont) := by
  refine ⟨by decide, by decide, by decide⟩

/-- C3 amended: the first candidate that exists and loads at both sizes is
used for both handles, and the default font is used for both handles
exactly when no candidate even reaches the size-24 assignment (exists and
loads at 24); when a candidate loads at 24 but 14 fails and no later
candidate fully succeeds, the title handle keeps a truetype handle and the
fallback is skipped. Font-load failures are absorbed by the loop and never
escalate. -/
theorem C3_font_resolution (env : FontEnv) :
    (∀ p, font_paths.find? (both_load_ok env) = some p →
      resolve_fonts env = (some (FontRef.truetype p 24), some (FontRef.truetype p 14)))
    ∧ (resolve_fonts env = (some FontRef.defaultFont, some FontRef.defaultFont)
        ↔ ∀ q ∈ font_paths, ¬ title_load_ok env q = true) := by
  constructor
  · intro p hfind
    rw [resolve_fonts, font_loop_find env font_paths (none, none) p hfind]
    simp
  · constructor
    · intro hres q hq hload
      have h := font_loop_title_of_mem env font_paths (none, none) ⟨q, hq, hload⟩
      rcases h with ⟨p, hp⟩
      rw [resolve_fonts] at hres
      by_cases hn : (font_loop env font_paths (none, none)).1 = none
      · rw [hp] at hn; exact Option.noConfusion hn
      · simp only [hn, if_false] at hres
        have : (font_loop env font_paths (none, none)).1 = some FontRef.defaultFont := by
          rw [hres]
        rw [hp] at this
        exact FontRef.noConfusion (Option.some.inj this)
    · intro hall
      rw [resolve_fonts, font_loop_no_title env font_paths (none, none) hall]
      simp

/-- Witness for C3: with every candidate available, resolution picks the
first path in the list for both sizes. -/
theorem C3_font_resolution_witness :
    resolve_fonts all_fonts_env
      = (some (FontRef.truetype "/System/Library/Fonts/Helvetica.ttc" 24),
         some (FontRef.truetype "/System/Library/Fonts/Helvetica.ttc" 14)) :=
  (C3_font_resolution all_fonts_env).1 "/System/Library/Fonts/Helvetica.ttc" (by decide)

namespace CreateBackground

/-- `text_color = (80, 80, 80)`. -/
def text_color : ℤ × ℤ × ℤ := (80, 80, 80)

/-- `accent_color = (70, 130, 180)` (steel blue). -/
def accent_color : ℤ × ℤ × ℤ := (70, 130, 180)

/-- `arrow_color = (150, 150, 150)`. -/
def arrow_color : ℤ × ℤ × ℤ := (150, 150, 150)

/-- `cat_color = (200, 200, 200)`. -/
def cat_color : ℤ × ℤ × ℤ := (200, 200, 200)

/-- `cat_x = 50`. -/
def cat_x : ℤ := 50

/-- `cat_y = 200`. -/
def cat_y : ℤ := 200

/-- `tail_x = cat_x - 5 + i`. -/
def tail_x (i : ℕ) : ℤ := cat_x - 5 + i

/-- `tail_y = cat_y + 10 + int(5 * (i / 20) ** 2)`: the rational floor of
the quadratic offset. -/
def tail_y (i : ℕ) : ℤ := cat_y + 10 + ⌊(5 : ℚ) * ((i : ℚ) / 20) ^ 2⌋

/-- Closed form of the tail curve: `210 + (i·i) div 80`. -/
theorem tail_y_eq (i : ℕ) : tail_y i = 210 + (i * i : ℤ) / 80 := by
  have h : (5 : ℚ) * ((i : ℚ) / 20) ^ 2 = ((i * i : ℤ) : ℚ) / ((80 : ℕ) : ℚ) := by
    push_cast
    ring
  rw [tail_y, h, Rat.floor_intCast_div_natCast, cat_y]
  ring_nf

/-- The tail pass: `for i in range(20): draw.ellipse([tail_x, tail_y,
tail_x + 4, tail_y + 8], fill=cat_color)`. -/
def tail_ops : List DrawOp :=
  (List.range 20).map fun (i : ℕ) =>
    DrawOp.ellipse (tail_x i, tail_y i) (tail_x i + 4, tail_y i + 8) cat_color

/-- `version_text = "v1.5.2"`. -/
def version_text : String := "v1.5.2"

end CreateBackground

/-- C9: the i-th tail ellipse (i < 20) is drawn at vertical position
`tail_y i = cat_y + 10 + floor(5·(i/20)²)`, equal to `210 + (i·i) div 80`,
and this offset is monotonically non-decreasing in the horizontal index. -/
theorem C9_tail_curve :
    (∀ i, i < 20 →
      tail_ops[i]? = some (DrawOp.ellipse (tail_x i, tail_y i)
        (tail_x i + 4, tail_y i + 8) cat_color)
      ∧ tail_y i = 210 + (i * i : ℤ) / 80)
    ∧ (∀ i j, i ≤ j → j < 20 → tail_y i ≤ tail_y j) := by
  constructor
  · intro i hi
    refine ⟨?_, tail_y_eq i⟩
    simp [tail_ops, List.getElem?_map, List.getElem?_range, hi]
  · intro i j hij _
    rw [tail_y_eq, tail_y_eq]
    have hmul : (i * i : ℤ) ≤ (j * j : ℤ) := by
      have := Nat.mul_le_mul hij hij
      exact_mod_cast this
    have := Int.ediv_le_ediv (by norm_num : (0 : ℤ) < 80) hmul
    omega

/-- Witness for C9 at concrete indices. -/
theorem C9_tail_curve_witness :
    tail_y 19 = 210 + (19 * 19 : ℤ) / 80 ∧ tail_y 0 ≤ tail_y 19 :=
  ⟨(C9_tail_curve.1 19 (by decide)).2, C9_tail_curve.2 0 19 (by decide) (by decide)⟩

namespace CreateBackground

/-- `arrow_start_x = 320`. -/
def arrow_start_x : ℤ := 320

/-- `arrow_start_y = 140`. -/
def arrow_start_y : ℤ := 140

/-- `arrow_end_x = 370`. -/
def arrow_end_x : ℤ := 370

/-- `arrow_end_y = 140`. -/
def arrow_end_y : ℤ := 140

/-- Everything `create_dmg_background` reads from its surroundings: the
font environment plus the `draw.textbbox` measurement oracle. -/
structure ComposeEnv extends FontEnv where
  textbbox : String → Option FontRef → ℤ × ℤ × ℤ × ℤ

/-- The complete, ordered sequence of drawing operations issued by
`create_dmg_background(output_path)` with the default 540×300 canvas:
gradient scanlines, the two centered text blocks, the arrow line and head,
the cat body, head and ears, the twenty tail ellipses, the version label,
and the final `image.save(output_path, "PNG", optimize=True)`. -/
def compose_ops (env : ComposeEnv) (output_path : String) : List DrawOp :=
  let fonts := resolve_fonts env.toFontEnv
  let title_font := fonts.1
  let instruction_font := fonts.2
  let title_width := bbox_width (env.textbbox title_text title_font)
  let instruction_width := bbox_width (env.textbbox instruction_text instruction_font)
  gradient_ops ++
  [DrawOp.text (title_x title_width, 30) title_text accent_color title_font,
   DrawOp.text (instruction_x instruction_width, 65) instruction_text text_color
     instruction_font,
   DrawOp.line (arrow_start_x, arrow_start_y) (arrow_end_x, arrow_end_y) arrow_color 2,
   DrawOp.polygon [(arrow_end_x, arrow_end_y), (arrow_end_x - 8, arrow_end_y - 4),
     (arrow_end_x - 8, arrow_end_y + 4)] arrow_color,
   DrawOp.ellipse (cat_x, cat_y) (cat_x + 40, cat_y + 25) cat_color,
   DrawOp.ellipse (cat_x + 35, cat_y - 15) (cat_x + 55, cat_y + 5) cat_color,
   DrawOp.polygon [(cat_x + 38, cat_y - 15), (cat_x + 42, cat_y - 25),
     (cat_x + 46, cat_y - 15)] cat_color,
   DrawOp.polygon [(cat_x + 47, cat_y - 15), (cat_x + 51, cat_y - 25),
     (cat_x + 55, cat_y - 15)] cat_color] ++
  tail_ops ++
  [DrawOp.text ((width : ℤ) - 60, (height : ℤ) - 25) version_text (180, 180, 180)
     instruction_font,
   DrawOp.save output_path "PNG"]

/-- A compose environment with every font available and a fixed
measurement oracle, for concrete instantiations. -/
def sample_compose_env : ComposeEnv where
  toFontEnv := all_fonts_env
  textbbox := fun _ _ => (0, 0, 220, 20)

end CreateBackground

/-- C5: the composition is deterministic — two runs against environments
that agree on the available font files, the font-load outcomes and the
text-measurement results issue the identical sequence of drawing
operations (including the final save of the identically composed canvas),
and font resolution picks the same handles. -/
theorem C5_deterministic (e₁ e₂ : ComposeEnv) (output_path : String)
    (hfs : e₁.fileExists = e₂.fileExists) (hload : e₁.loadOk = e₂.loadOk)
    (hbb : e₁.textbbox = e₂.textbbox) :
    compose_ops e₁ output_path = compose_ops e₂ output_path
    ∧ resolve_fonts e₁.toFontEnv = resolve_fonts e₂.toFontEnv := by
  obtain ⟨⟨f₁, l₁⟩, b₁⟩ := e₁
  obtain ⟨⟨f₂, l₂⟩, b₂⟩ := e₂
  simp only [ComposeEnv.mk.injEq, FontEnv.mk.injEq] at hfs hload hbb ⊢
  subst hfs
  subst hload
  subst hbb
  exact ⟨rfl, rfl⟩

/-- Witness for C5 at a concrete environment and path. -/
theorem C5_deterministic_witness :
    compose_ops sample_compose_env "background.png"
      = compose_ops sample_compose_env "background.png"
    ∧ resolve_fonts sample_compose_env.toFontEnv
      = resolve_fonts sample_compose_env.toFontEnv :=
  C5_deterministic sample_compose_env sample_compose_env "background.png" rfl rfl rfl

namespace CreateBackground

/-- The pixel coordinates an operation passes to the drawing library
(`save` passes none). -/
def points : DrawOp → List (ℤ × ℤ)
  | DrawOp.line a b _ _ => [a, b]
  | DrawOp.polygon pts _ => pts
  | DrawOp.ellipse a b _ => [a, b]
  | DrawOp.text pos _ _ _ => [pos]
  | DrawOp.save _ _ => []

/-- All pixel coordinates passed during one composition run. -/
def compose_points (env : ComposeEnv) (output_path : String) : List (ℤ × ℤ) :=
  (compose_ops env output_path).flatMap points

/-- Bounds for the centering x-coordinate when the measured width fits the
canvas. -/
theorem center_x_bounds (n : ℤ) (h0 : 0 ≤ n) (h1 : n ≤ 540) :
    0 ≤ Int.fdiv n 2 ∧ Int.fdiv n 2 ≤ 540 := by
  rw [Int.fdiv_eq_ediv n (by norm_num : (0 : ℤ) ≤ 2)]
  omega

end CreateBackground

/-- Counterexample to C4 as stated: the gradient scanlines pass the
coordinate `(width, y)` to `draw.line`, and `x = width = 540` is outside
the half-open range `[0, width)`. -/
theorem C4_counterexample :
    ((width : ℤ), (0 : ℤ)) ∈ compose_points sample_compose_env "background.png"
    ∧ ¬ ((width : ℤ) < (width : ℤ)) := by
  constructor
  · have hg : ((width : ℤ), (0 : ℤ)) ∈ gradient_ops.flatMap points := by
      rw [gradient_ops]
      refine List.mem_flatMap.mpr
        ⟨DrawOp.line ((0 : ℤ), (0 : ℤ)) ((width : ℤ), (0 : ℤ)) (gradient_color 0) 1, ?_, ?_⟩
      · exact List.mem_map.mpr ⟨0, List.mem_range.mpr (by norm_num [height]), rfl⟩
      · simp [points]
    simp only [compose_points, compose_ops, List.flatMap_append, List.mem_append]
    exact Or.inl (Or.inl (Or.inl hg))
  · decide

/-- C4 amended: provided the two measured text widths lie within
`[0, width]`, every pixel coordinate passed to a drawing call lies within
the closed-open box `[0, width] × [0, height)`; the gradient scanlines'
right endpoints sit exactly on `x = width`, which is the sole departure
from the half-open bound of the original claim. -/
theorem C4_coordinate_bounds (env : ComposeEnv) (output_path : String)
    (htw0 : 0 ≤ bbox_width (env.textbbox title_text (resolve_fonts env.toFontEnv).1))
    (htw1 : bbox_width (env.textbbox title_text (resolve_fonts env.toFontEnv).1) ≤ (width : ℤ))
    (hiw0 : 0 ≤ bbox_width (env.textbbox instruction_text (resolve_fonts env.toFontEnv).2))
    (hiw1 : bbox_width (env.textbbox instruction_text (resolve_fonts env.toFontEnv).2)
      ≤ (width : ℤ)) :
    ∀ q ∈ compose_points env output_path,
      0 ≤ q.1 ∧ q.1 ≤ (width : ℤ) ∧ 0 ≤ q.2 ∧ q.2 < (height : ℤ) := by
  intro q hq
  simp only [compose_points, compose_ops, List.flatMap_append, List.mem_append] at hq
  rcases hq with ((hg | hfix) | htail) | hlast
  · rw [gradient_ops] at hg
    rcases List.mem_flatMap.mp hg with ⟨op, hop, hpt⟩
    rcases List.mem_map.mp hop with ⟨y, hy, rfl⟩
    have hy300 : y < 300 := by simpa [height] using List.mem_range.mp hy
    have hyz : (y : ℤ) < 300 := by exact_mod_cast hy300
    have hyz0 : (0 : ℤ) ≤ (y : ℤ) := by positivity
    simp only [points, List.mem_cons, List.not_mem_nil, or_false] at hpt
    rcases hpt with rfl | rfl <;> dsimp only <;>
      simp only [width, height, Nat.cast_ofNat] <;> omega
  · simp only [List.flatMap_cons, List.flatMap_nil, points, List.append_nil,
      List.mem_append, List.mem_cons, List.not_mem_nil, or_false] at hfix
    rcases hfix with rfl | rfl | (rfl | rfl) | (rfl | rfl | rfl) | (rfl | rfl) | (rfl | rfl) |
      (rfl | rfl | rfl) | (rfl | rfl | rfl)
    · dsimp only
      simp only [title_x, width, height, Nat.cast_ofNat] at htw0 htw1 ⊢
      have hb := center_x_bounds
        ((540 : ℤ) - bbox_width (env.textbbox title_text (resolve_fonts env.toFontEnv).1))
        (by omega) (by omega)
      exact ⟨hb.1, hb.2, by norm_num, by norm_num⟩
    · dsimp only
      simp only [instruction_x, width, height, Nat.cast_ofNat] at hiw0 hiw1 ⊢
      have hb := center_x_bounds
        ((540 : ℤ) - bbox_width (env.textbbox instruction_text (resolve_fonts env.toFontEnv).2))
        (by omega) (by omega)
      exact ⟨hb.1, hb.2, by norm_num, by norm_num⟩
    all_goals decide
  · rw [tail_ops] at htail
    rcases List.mem_flatMap.mp htail with ⟨op, hop, hpt⟩
    rcases List.mem_map.mp hop with ⟨i, hi, rfl⟩
    have hi20 : i < 20 := List.mem_range.mp hi
    have hii : (i * i : ℤ) ≤ 361 := by
      exact_mod_cast Nat.mul_le_mul (by omega : i ≤ 19) (by omega : i ≤ 19)
    have hii0 : (0 : ℤ) ≤ (i * i : ℤ) := by positivity
    have hty := tail_y_eq i
    have hxi : tail_x i = 45 + (i : ℤ) := by rw [tail_x, cat_x]; omega
    have hiz : (i : ℤ) < 20 := by exact_mod_cast hi20
    have hiz0 : (0 : ℤ) ≤ (i : ℤ) := by positivity
    simp only [points, List.mem_cons, List.not_mem_nil, or_false] at hpt
    rcases hpt with rfl | rfl <;> dsimp only <;>
      simp only [width, height, Nat.cast_ofNat] <;> omega
  · simp only [List.flatMap_cons, List.flatMap_nil, points, List.append_nil,
      List.mem_append, List.mem_cons, List.not_mem_nil, or_false] at hlast
    rcases hlast with rfl
    decide

/-- Witness for C4 at a concrete environment, checked at the arrow line's
start point. -/
theorem C4_coordinate_bounds_witness :
    0 ≤ ((320 : ℤ), (140 : ℤ)).1 ∧ ((320 : ℤ), (140 : ℤ)).1 ≤ (width : ℤ)
    ∧ 0 ≤ ((320 : ℤ), (140 : ℤ)).2 ∧ ((320 : ℤ), (140 : ℤ)).2 < (height : ℤ) := by
  refine C4_coordinate_bounds sample_compose_env "background.png"
    (by norm_num [sample_compose_env, all_fonts_env, bbox_width])
    (by norm_num [sample_compose_env, all_fonts_env, bbox_width, width])
    (by norm_num [sample_compose_env, all_fonts_env, bbox_width])
    (by norm_num [sample_compose_env, all_fonts_env, bbox_width, width])
    ((320 : ℤ), (140 : ℤ)) ?_
  simp only [compose_points, compose_ops, List.flatMap_append, List.mem_append]
  refine Or.inl (Or.inl (Or.inr ?_))
  simp [points, List.flatMap_cons, List.flatMap_nil, arrow_start_x, arrow_start_y]

namespace CreateBackground

/-- `p[: p.rfind("/") + 1]`: the prefix of the character list up to and
including the last slash (empty when there is no slash), as computed
inside `posixpath.dirname`. -/
def take_to_last_slash : List Char → List Char
  | [] => []
  | c :: rest =>
    if '/' ∈ rest then c :: take_to_last_slash rest
    else if c = '/' then ['/'] else []

/-- `os.path.dirname` for POSIX paths: the prefix up to the last slash,
with trailing slashes stripped unless the prefix consists only of
slashes. -/
def dirname (p : String) : String :=
  let head := take_to_last_slash p.data
  if head ≠ [] ∧ head.any (fun c => c ≠ '/') then
    String.mk ((head.reverse.dropWhile (fun c => c = '/')).reverse)
  else
    String.mk head

/-- A path without a slash has an empty prefix-to-last-slash. -/
theorem take_to_last_slash_of_no_slash (cs : List Char) (h : '/' ∉ cs) :
    take_to_last_slash cs = [] := by
  induction cs with
  | nil => rfl
  | cons c rest ih =>
    have h1 : '/' ∉ rest := fun hr => h (List.mem_cons_of_mem c hr)
    have h2 : ¬ c = '/' := fun hc => h (hc ▸ List.mem_cons_self c rest)
    rw [take_to_last_slash]
    simp [h1, h2, ih h1]

/-- `os.path.dirname` of a bare filename is the empty string. -/
theorem dirname_of_no_slash (p : String) (h : '/' ∉ p.data) : dirname p = "" := by
  rw [dirname]
  simp [take_to_last_slash_of_no_slash p.data h]

/-- An observable side effect of a run: a line printed to stdout, a
directory created by `os.makedirs`, or the PNG file written. -/
inductive SysEvent where
  | print (s : String)
  | makedirs (d : String)
  | savePNG (path : String)
  deriving DecidableEq

/-- The outcome of a process run: the ordered successful side effects and
the exit status. -/
structure RunResult where
  events : List SysEvent
  exitCode : ℕ
  deriving DecidableEq

/-- Which directory paths `os.makedirs(·, exist_ok=True)` can create — the
writable-filesystem part of the environment.  Independent of this,
`os.makedirs("")` always raises `FileNotFoundError`. -/
structure SysEnv where
  writable : String → Bool

/-- The usage line printed on a wrong argument count. -/
def usage_msg : String := "Usage: python3 create_background.py <output_path>"

/-- Confirmation printed by `create_dmg_background` after saving. -/
def created_msg (p : String) : String := "✅ DMG background created: " ++ p

/-- Confirmation printed by `main` after `create_dmg_background` returns. -/
def success_msg (p : String) : String :=
  "🎨 Professional DMG background created at: " ++ p

/-- `main()`, over the positional arguments after the script name (so
`len(sys.argv) != 2` is `argv.length ≠ 1`): wrong argument count prints the
usage message and exits 1 before any other work; otherwise
`os.makedirs(os.path.dirname(output_path), exist_ok=True)` runs first —
raising `FileNotFoundError` on the empty string and on unwritable
locations, which terminates the process with a traceback on stderr and
exit status 1 before anything is drawn — and then
`create_dmg_background(output_path)` saves the PNG and prints its
confirmation, followed by the final confirmation print and exit status
0. -/
def main (env : SysEnv) (argv : List String) : RunResult :=
  if argv.length ≠ 1 then
    { events := [SysEvent.print usage_msg], exitCode := 1 }
  else
    let output_path := argv.headD ""
    let d := dirname output_path
    if d = "" ∨ env.writable d = false then
      { events := [], exitCode := 1 }
    else
      { events := [SysEvent.makedirs d, SysEvent.savePNG output_path,
          SysEvent.print (created_msg output_path),
          SysEvent.print (success_msg output_path)],
        exitCode := 0 }

/-- The diagnostic printed when the imaging library cannot be imported. -/
def pil_missing_msg : String :=
  "PIL (Pillow) not available. Install with: pip install Pillow"

/-- The module import guard: when the imaging library is unavailable, the
`except ImportError` handler prints the diagnostic and the process
terminates with exit status 1 before any drawing or filesystem work (the
handler's `sys.exit(1)` in fact raises an uncaught `NameError`, because
`sys` is imported inside the failed `try` block — but an uncaught
exception also terminates the process with status 1); `main` runs only
when the import succeeds. -/
def program_entry (pil_available : Bool) (env : SysEnv) (argv : List String) : RunResult :=
  if pil_available then main env argv
  else { events := [SysEvent.print pil_missing_msg], exitCode := 1 }

/-- A fully writable system environment for concrete instantiations. -/
def writable_env : SysEnv where
  writable := fun _ => true

end CreateBackground

/-- C6: invoked with zero or more than one positional argument, the
program prints the usage message to stdout, exits with a non-zero status,
and neither draws, creates a directory nor writes a file. -/
theorem C6_usage_on_bad_argc (env : SysEnv) (argv : List String) (h : argv.length ≠ 1) :
    main env argv = { events := [SysEvent.print usage_msg], exitCode := 1 }
    ∧ (main env argv).exitCode ≠ 0
    ∧ ∀ p, SysEvent.savePNG p ∉ (main env argv).events
      ∧ SysEvent.makedirs p ∉ (main env argv).events := by
  have hm : main env argv = { events := [SysEvent.print usage_msg], exitCode := 1 } := by
    rw [main, if_pos h]
  refine ⟨hm, by rw [hm]; decide, ?_⟩
  intro p
  rw [hm]
  simp

/-- Witness for C6: zero positional arguments. -/
theorem C6_usage_on_bad_argc_witness :
    main writable_env [] = { events := [SysEvent.print usage_msg], exitCode := 1 }
    ∧ (main writable_env []).exitCode ≠ 0
    ∧ SysEvent.savePNG "background.png" ∉ (main writable_env []).events
    ∧ SysEvent.makedirs "build" ∉ (main writable_env []).events := by
  have h := C6_usage_on_bad_argc writable_env [] (by decide)
  exact ⟨h.1, h.2.1, (h.2.2 "background.png").1, (h.2.2 "build").2⟩

/-- C7: with one writable output path whose parent-directory string is
non-empty, the run creates the parent directory first, then writes the
PNG, prints the confirmations — the final one containing the output path
— and exits with status 0. -/
theorem C7_creates_parent_dir (env : SysEnv) (p : String)
    (hd : dirname p ≠ "") (hw : env.writable (dirname p) = true) :
    main env [p] = { events := [SysEvent.makedirs (dirname p), SysEvent.savePNG p,
        SysEvent.print (created_msg p), SysEvent.print (success_msg p)], exitCode := 0 }
    ∧ (main env [p]).exitCode = 0
    ∧ ∃ pre, success_msg p = pre ++ p := by
  have hm : main env [p] = { events := [SysEvent.makedirs (dirname p), SysEvent.savePNG p,
      SysEvent.print (created_msg p), SysEvent.print (success_msg p)], exitCode := 0 } := by
    rw [main]
    simp only [List.length_cons, List.length_nil, List.headD]
    rw [if_neg (by omega)]
    rw [if_neg (by simp [hd, hw])]
  exact ⟨hm, by rw [hm], ⟨"🎨 Professional DMG background created at: ", rfl⟩⟩

/-- Witness for C7 at a concrete path with a non-trivial parent. -/
theorem C7_creates_parent_dir_witness :
    main writable_env ["build/dmg_background.png"]
      = { events := [SysEvent.makedirs (dirname "build/dmg_background.png"),
          SysEvent.savePNG "build/dmg_background.png",
          SysEvent.print (created_msg "build/dmg_background.png"),
          SysEvent.print (success_msg "build/dmg_background.png")], exitCode := 0 }
    ∧ (main writable_env ["build/dmg_background.png"]).exitCode = 0
    ∧ ∃ pre, success_msg "build/dmg_background.png" = pre ++ "build/dmg_background.png" :=
  C7_creates_parent_dir writable_env "build/dmg_background.png" (by decide) rfl

/-- C8: when the imaging library is unavailable at process start the run
is fatal — the diagnostic is printed, the exit status is non-zero, and no
drawing, directory creation or file write happens. -/
theorem C8_pil_missing_fatal (env : SysEnv) (argv : List String) :
    program_entry false env argv
      = { events := [SysEvent.print pil_missing_msg], exitCode := 1 }
    ∧ (program_entry false env argv).exitCode ≠ 0
    ∧ ∀ p, SysEvent.savePNG p ∉ (program_entry false env argv).events
      ∧ SysEvent.makedirs p ∉ (program_entry false env argv).events := by
  refine ⟨rfl, by simp [program_entry], ?_⟩
  intro p
  constructor <;> simp [program_entry]

/-- C10: a bare filename with no directory component has an empty
parent-directory string, so `os.makedirs("")` raises and the run aborts
with a non-zero status before compose: nothing is printed to stdout,
drawn, or written. -/
theorem C10_bare_filename_aborts (env : SysEnv) (p : String) (h : '/' ∉ p.data) :
    dirname p = "" ∧ main env [p] = { events := [], exitCode := 1 } := by
  have hd := dirname_of_no_slash p h
  refine ⟨hd, ?_⟩
  rw [main]
  simp only [List.length_cons, List.length_nil, List.headD]
  rw [if_neg (by omega)]
  rw [if_pos (Or.inl hd)]

/-- Witness for C10 at the bare filename `out.png` in a writable
environment. -/
theorem C10_bare_filename_aborts_witness :
    dirname "out.png" = ""
    ∧ main writable_env ["out.png"] = { events := [], exitCode := 1 } :=
  C10_bare_filename_aborts writable_env "out.png" (by decide)
